import Mathlib

/-!
Verification of the query-client core of this repository: a shallow embedding
of `src/hydration/hydration.ts` and `src/core/queryClient.ts` together with the
parts of the data model (query state, options, cache) they operate on.
JavaScript numbers that may be `Infinity` are modelled by `JNum`; optional
fields (`undefined` in JavaScript) are modelled by `Option`; the keyed Query
Cache is modelled by a list of queries (insertion order preserved, as in the
source's `Map`-backed store).
-/

set_option autoImplicit false

namespace ReactQuery

/-- A JavaScript number that is either finite or positive `Infinity`
(the only non-finite value `cacheTime` may take). -/
inductive JNum where
  | fin (v : Int)
  | inf
  deriving DecidableEq, Repr

/-- `v` is a non-negative finite number or `Infinity`. -/
def JNum.nonneg : JNum → Prop
  | .fin v => 0 ≤ v
  | .inf => True

instance : DecidablePred JNum.nonneg := fun v => by
  cases v <;> simp [JNum.nonneg] <;> infer_instance

/-- Query status from the core data model (`idle | loading | success | error`). -/
inductive QueryStatus where
  | idle
  | loading
  | success
  | error
  deriving DecidableEq, Repr

/-- The observable per-query state, from the core `QueryState` shape
(`data`, timestamps, failure count, flags, status). `α` is the data payload
type, `ε` the error type. -/
structure QueryState (α ε : Type) where
  data : Option α
  dataUpdatedAt : Int
  error : Option ε
  errorUpdatedAt : Int
  updatedAt : Int
  fetchFailureCount : Nat
  isFetching : Bool
  isInvalidated : Bool
  status : QueryStatus
  deriving DecidableEq, Repr

/-- A retry policy value: `false`, `true`, or a bound on the number of
retries (the source also admits predicates; the claims only need values). -/
inductive Retry where
  | rfalse
  | rtrue
  | count (n : Nat)
  deriving DecidableEq, Repr

/-- Query options as used by the client facade and hydration: every field is
optional, `none` modelling an absent (`undefined`) field of the JavaScript
options object. Keys are modelled as strings. -/
structure QueryOptions where
  queryKey : Option String := none
  queryHash : Option String := none
  retry : Option Retry := none
  staleTime : Option Int := none
  cacheTime : Option JNum := none
  deriving DecidableEq, Repr

/-- An observer subscribed to a query; only its `enabled` option matters for
the active/inactive distinction (`enabled !== false`). -/
structure Observer where
  enabled : Option Bool := none
  deriving DecidableEq, Repr

/-- A cache entry: key, canonical hash, state, retention time, effective
options and the authoritative observer set. -/
structure Query (α ε : Type) where
  queryKey : String
  queryHash : String
  state : QueryState α ε
  cacheTime : JNum
  options : QueryOptions
  observers : List Observer
  deriving DecidableEq, Repr

/-- Modelled from the spec: the Key Hasher canonicalizes a structured key into
a stable string hash (`src/core/utils.ts` is not in the sampled source). On
string keys the canonical serialization is injective, so it is modelled as the
identity. -/
def hashQueryKey (key : String) : String := key

/-- Modelled from the spec: `Query.setState` (used by `hydrate` on an existing
query; `src/core/query.ts` is not in the sampled source) replaces the query's
state with the provided one. -/
def Query.setState {α ε : Type} (q : Query α ε) (s : QueryState α ε) : Query α ε :=
  { q with state := s }

/-- A query is active iff it has an observer with `enabled !== false`
(spec section 4.4, filter semantics). -/
def Query.isActive {α ε : Type} (q : Query α ε) : Bool :=
  q.observers.any (fun o => !(o.enabled == some false))

/-- Modelled from the spec: a query is stale iff it `isInvalidated` or
`now - dataUpdatedAt ≥ staleTime` (default 0); `src/core/query.ts` is not in
the sampled source. This is `query.isStaleByTime(staleTime)` with the clock
passed explicitly. -/
def isStaleByTime {α ε : Type} (q : Query α ε) (staleTime : Option Int) (now : Int) : Bool :=
  q.state.isInvalidated || decide (now - q.state.dataUpdatedAt ≥ staleTime.getD 0)

/-- Staleness of a query under its own options' `staleTime`. -/
def Query.isStaleNow {α ε : Type} (q : Query α ε) (now : Int) : Bool :=
  isStaleByTime q q.options.staleTime now

-- HYDRATION (`src/hydration/hydration.ts`)

/-- `serializePositiveNumber` from `hydration.ts`: `Infinity` is encoded
as `-1`, every other value is passed through. -/
def serializePositiveNumber (value : JNum) : JNum :=
  if value = JNum.inf then JNum.fin (-1) else value

/-- `deserializePositiveNumber` from `hydration.ts`: `-1` decodes
to `Infinity`, every other value is passed through. -/
def deserializePositiveNumber (value : JNum) : JNum :=
  if value = JNum.fin (-1) then JNum.inf else value

/-- The dehydrated `config` record: only `cacheTime` is carried across the
serialization boundary. -/
structure DehydratedQueryConfig where
  cacheTime : JNum
  deriving DecidableEq, Repr

/-- One dehydrated query of the payload. -/
structure DehydratedQuery (α ε : Type) where
  queryKey : String
  queryHash : String
  state : QueryState α ε
  config : DehydratedQueryConfig
  deriving DecidableEq, Repr

/-- The dehydrated payload shape `{ queries: [...] }`. -/
structure DehydratedState (α ε : Type) where
  queries : List (DehydratedQuery α ε)
  deriving DecidableEq, Repr

/-- `dehydrateQuery` from `hydration.ts`: emit the key, hash, state, and the
encoded `cacheTime`. -/
def dehydrateQuery {α ε : Type} (query : Query α ε) : DehydratedQuery α ε :=
  { config := { cacheTime := serializePositiveNumber query.cacheTime }
    state := query.state
    queryKey := query.queryKey
    queryHash := query.queryHash }

/-- `defaultShouldDehydrate` from `hydration.ts`: keep exactly the queries
whose status is `success`. -/
def defaultShouldDehydrate {α ε : Type} (query : Query α ε) : Bool :=
  decide (query.state.status = QueryStatus.success)

/-- The `dehydrate` options record (`shouldDehydrate?`). -/
structure DehydrateOptions (α ε : Type) where
  shouldDehydrate : Option (Query α ε → Bool) := none

/-- `dehydrate` from `hydration.ts`: walk the cache (here the ordered list of
queries) and emit the dehydrated form of each query the predicate keeps. -/
def dehydrate {α ε : Type} (cache : List (Query α ε))
    (options : Option (DehydrateOptions α ε)) : DehydratedState α ε :=
  let opts := options.getD {}
  let shouldDehydrate := opts.shouldDehydrate.getD defaultShouldDehydrate
  { queries := (cache.filter shouldDehydrate).map dehydrateQuery }

/-- The untrusted value passed to `hydrate`, discriminated the way the
JavaScript `typeof` test sees it: a primitive, `undefined`, `null`, or an
object whose `queries` field may be absent. -/
inductive DehydratedInput (α ε : Type) where
  | str (s : String)
  | num (n : Int)
  | boolean (b : Bool)
  | undef
  | null
  | object (queries : Option (List (DehydratedQuery α ε)))

/-- The JavaScript `typeof` of the hydration input (`typeof null` is
`"object"`). -/
def jsTypeof {α ε : Type} : DehydratedInput α ε → String
  | .str _ => "string"
  | .num _ => "number"
  | .boolean _ => "boolean"
  | .undef => "undefined"
  | .null => "object"
  | .object _ => "object"

/-- Whether the hydration input is `null`. -/
def isNullInput {α ε : Type} : DehydratedInput α ε → Bool
  | .null => true
  | _ => false

/-- `(dehydratedState as DehydratedState).queries || []`: the queries list of
an object payload, or `[]` when the field is absent. -/
def dehydratedQueries {α ε : Type} : DehydratedInput α ε → List (DehydratedQuery α ε)
  | .object (some qs) => qs
  | _ => []

/-- The `hydrate` options record (`defaultOptions?`). -/
structure HydrateOptions where
  defaultOptions : Option QueryOptions := none

/-- Replace the first list element satisfying `p` by its image under `f`
(in-place mutation of the query found by `cache.get`). -/
def updateFirst {β : Type} (p : β → Bool) (f : β → β) : List β → List β
  | [] => []
  | x :: xs => if p x then f x :: xs else x :: updateFirst p f xs

/-- Modelled from the spec: `client.restoreQuery` / `queryCache.restore`
(`src/core/queryCache.ts` is not in the sampled source) builds a new Query
from the given options and adopts the provided state; its `cacheTime` comes
from the options (default 300000 ms). -/
def restoreQuery {α ε : Type} (options : QueryOptions) (state : QueryState α ε) : Query α ε :=
  { queryKey := options.queryKey.getD ""
    queryHash := options.queryHash.getD ""
    state := state
    cacheTime := options.cacheTime.getD (JNum.fin 300000)
    options := options
    observers := [] }

/-- The per-query body of `hydrate`'s `forEach`: look the hash up in the
cache; if found, overwrite the state only when the existing `updatedAt` is
strictly smaller; otherwise restore a new query from the defaults, the
dehydrated key/hash, the decoded `cacheTime`, and the dehydrated state. -/
def hydrateOne {α ε : Type} (defaults : QueryOptions) (cache : List (Query α ε))
    (dq : DehydratedQuery α ε) : List (Query α ε) :=
  match cache.find? (fun q => q.queryHash == dq.queryHash) with
  | some query =>
    if query.state.updatedAt < dq.state.updatedAt then
      updateFirst (fun q => q.queryHash == dq.queryHash) (fun q => q.setState dq.state) cache
    else
      cache
  | none =>
    cache ++ [restoreQuery
      { defaults with
        queryKey := some dq.queryKey
        queryHash := some dq.queryHash
        cacheTime := some (deserializePositiveNumber dq.config.cacheTime) }
      dq.state]

/-- `hydrate` from `hydration.ts`: return the cache unchanged unless the
payload is a non-null object, then fold the per-query hydration over
`queries || []` with `options?.defaultOptions || {}`. -/
def hydrate {α ε : Type} (cache : List (Query α ε)) (input : DehydratedInput α ε)
    (options : Option HydrateOptions) : List (Query α ε) :=
  if jsTypeof input ≠ "object" ∨ isNullInput input = true then
    cache
  else
    let defaults := (options.bind (fun o => o.defaultOptions)).getD {}
    (dehydratedQueries input).foldl (hydrateOne defaults) cache

-- CLIENT FACADE (`src/core/queryClient.ts`)

/-- The client's default options record (only the query side is needed by the
claims). -/
structure DefaultOptions where
  queries : QueryOptions := {}
  deriving DecidableEq, Repr

/-- The JavaScript object spread `{...base, ...override}` on an optional
field: a field present (defined) on the right wins. -/
def optOverride {β : Type} (base override : Option β) : Option β :=
  match override with
  | some v => some v
  | none => base

/-- The spread `{...a, ...b}` on two options records, field by field. -/
def spreadQueryOptions (a b : QueryOptions) : QueryOptions :=
  { queryKey := optOverride a.queryKey b.queryKey
    queryHash := optOverride a.queryHash b.queryHash
    retry := optOverride a.retry b.retry
    staleTime := optOverride a.staleTime b.staleTime
    cacheTime := optOverride a.cacheTime b.cacheTime }

/-- `defaultQueryOptions` from `queryClient.ts`:
`{ ...this.defaultOptions.queries, ...options }`. -/
def defaultQueryOptions (defaults : DefaultOptions) (options : QueryOptions) : QueryOptions :=
  spreadQueryOptions defaults.queries options

/-- The retry-defaulting step at the top of `fetchQueryData`: when the parsed
options leave `retry` undefined, set it to `false`. -/
def applyPrefetchRetryDefault (parsed : QueryOptions) : QueryOptions :=
  match parsed.retry with
  | none => { parsed with retry := some Retry.rfalse }
  | some _ => parsed

/-- The options `fetchQueryData` actually fetches with: the parsed options
with the retry default applied, merged over the client defaults. -/
def effectiveFetchOptions (defaults : DefaultOptions) (parsed : QueryOptions) : QueryOptions :=
  defaultQueryOptions defaults (applyPrefetchRetryDefault parsed)

/-- Modelled from the spec: `queryCache.find(queryKey)`
(`src/core/queryCache.ts` is not in the sampled source) hashes the key and
returns the cached query with that hash, if any. -/
def findQueryByKey {α ε : Type} (cache : List (Query α ε)) (key : String) : Option (Query α ε) :=
  cache.find? (fun q => q.queryHash == hashQueryKey key)

/-- What `fetchQueryData` decides to do: resolve with the cached data without
fetching, start a fetch on the existing query, or build a new query and
fetch it. -/
inductive FetchDecision (α : Type) where
  | cached (v : Option α)
  | fetchExisting (queryHash : String)
  | fetchNew (queryHash : String)
  deriving DecidableEq, Repr

/-- The control flow of `fetchQueryData` from `queryClient.ts`: default
`retry` to `false` when unspecified, merge the client defaults, look the key
up in the cache; if a query exists and is not stale under the effective
`staleTime`, resolve with its `state.data`; otherwise fetch (on the existing
query, or on a newly built one). -/
def fetchQueryDataDecision {α ε : Type} (defaults : DefaultOptions)
    (cache : List (Query α ε)) (parsed : QueryOptions) (now : Int) : FetchDecision α :=
  let defaultedOptions := effectiveFetchOptions defaults parsed
  let key := defaultedOptions.queryKey.getD ""
  match findQueryByKey cache key with
  | none => FetchDecision.fetchNew (hashQueryKey key)
  | some query =>
    if !(isStaleByTime query defaultedOptions.staleTime now) then
      FetchDecision.cached query.state.data
    else
      FetchDecision.fetchExisting query.queryHash

/-- A settled promise: resolved with a value or rejected with an error. -/
inductive POutcome (α ε : Type) where
  | resolved (v : α)
  | rejected (e : ε)
  deriving DecidableEq, Repr

/-- `promise.then(f)` on a settled promise. -/
def pthen {α β ε : Type} (p : POutcome α ε) (f : α → β) : POutcome β ε :=
  match p with
  | .resolved v => .resolved (f v)
  | .rejected e => .rejected e

/-- `promise.catch(h)` on a settled promise: a rejection is turned into a
resolution with the handler's value. -/
def pcatch {α ε : Type} (p : POutcome α ε) (h : ε → α) : POutcome α ε :=
  match p with
  | .resolved v => .resolved v
  | .rejected e => .resolved (h e)

/-- `noop` from `src/core/utils.ts` (its behavior is pinned by its uses in
`queryClient.ts`): discard the argument and return `undefined`. -/
def noop {γ : Type} : γ → Unit := fun _ => ()

/-- The settled promise returned by `fetchQueryData`: the cached branch
resolves immediately with the cached data; the fetching branches settle the
way the underlying fetch settles (`fetchOutcome`). -/
def fetchQueryDataPromise {α ε : Type} (defaults : DefaultOptions)
    (cache : List (Query α ε)) (parsed : QueryOptions) (now : Int)
    (fetchOutcome : POutcome (Option α) ε) : POutcome (Option α) ε :=
  match fetchQueryDataDecision defaults cache parsed now with
  | .cached v => .resolved v
  | .fetchExisting _ => fetchOutcome
  | .fetchNew _ => fetchOutcome

/-- `prefetchQuery` from `queryClient.ts`:
`this.fetchQueryData(...).then(noop).catch(noop)`. -/
def prefetchQueryPromise {α ε : Type} (defaults : DefaultOptions)
    (cache : List (Query α ε)) (parsed : QueryOptions) (now : Int)
    (fetchOutcome : POutcome (Option α) ε) : POutcome Unit ε :=
  pcatch (pthen (fetchQueryDataPromise defaults cache parsed now fetchOutcome) noop) noop

-- QUERY FILTERS AND INVALIDATION

/-- Modelled from the spec: query filters (spec section 4.4), all combined
with AND; `refetchActive` / `refetchInactive` are the extra fields of
`InvalidateQueryFilters`. With string keys, exact and partial key matching
both reduce to hash equality, so the `exact` flag does not further restrict
the key check. -/
structure QueryFilters (α ε : Type) where
  queryKey : Option String := none
  exact : Option Bool := none
  active : Option Bool := none
  inactive : Option Bool := none
  stale : Option Bool := none
  fetching : Option Bool := none
  predicate : Option (Query α ε → Bool) := none
  refetchActive : Option Bool := none
  refetchInactive : Option Bool := none

/-- Modelled from the spec: whether a query matches the filters — key hash,
active / inactive observer status, staleness, fetching flag, and the custom
predicate, all conjoined (`src/core/utils.ts` is not in the sampled
source). -/
def matchQuery {α ε : Type} (filters : QueryFilters α ε) (now : Int) (q : Query α ε) : Bool :=
  (match filters.queryKey with
   | none => true
   | some k => hashQueryKey k == q.queryHash) &&
  (match filters.active with
   | none => true
   | some b => q.isActive == b) &&
  (match filters.inactive with
   | none => true
   | some b => (!q.isActive) == b) &&
  (match filters.stale with
   | none => true
   | some b => q.isStaleNow now == b) &&
  (match filters.fetching with
   | none => true
   | some b => q.state.isFetching == b) &&
  (match filters.predicate with
   | none => true
   | some p => p q)

/-- Modelled from the spec: `query.invalidate()` marks the query's state
`isInvalidated` (`src/core/query.ts` is not in the sampled source). -/
def Query.invalidate {α ε : Type} (q : Query α ε) : Query α ε :=
  { q with state := { q.state with isInvalidated := true } }

/-- `refetchQueries`'s effect on a cache snapshot: the hashes of the queries
`findAll(filters)` returns, each of which is fetched. -/
def refetchQueriesHashes {α ε : Type} (filters : QueryFilters α ε) (now : Int)
    (cache : List (Query α ε)) : List String :=
  (cache.filter (fun q => matchQuery filters now q)).map (fun q => q.queryHash)

/-- The outcome of `invalidateQueries`: the updated cache, the hashes of the
queries refetched, and how many Notify Manager batch flushes the call
produced. -/
structure InvalidateResult (α ε : Type) where
  cache : List (Query α ε)
  refetched : List String
  flushes : Nat

/-- `invalidateQueries` from `queryClient.ts`: build the refetch filters as
`{...filters, active: refetchActive ?? true, inactive: refetchInactive ??
false}`, then, inside one `notifyManager.batch`, invalidate every query
matching the given filters and refetch the queries matching the refetch
filters (evaluated on the already-invalidated cache, because
`refetchQueries` runs its own `findAll` after the invalidation loop). -/
def invalidateQueries {α ε : Type} (cache : List (Query α ε))
    (filters : QueryFilters α ε) (now : Int) : InvalidateResult α ε :=
  let refetchFilters : QueryFilters α ε :=
    { filters with
      active := some (filters.refetchActive.getD true)
      inactive := some (filters.refetchInactive.getD false) }
  let invalidated := cache.map (fun q => if matchQuery filters now q then q.invalidate else q)
  { cache := invalidated
    refetched := refetchQueriesHashes refetchFilters now invalidated
    flushes := 1 }

-- MOUNTED CLIENTS AND THE FOCUS/ONLINE BUS

/-- `mount` from `queryClient.ts`: push the client onto the process-wide
`mountedClients` list (clients are modelled by identity tokens). -/
def mount (mountedClients : List Nat) (client : Nat) : List Nat :=
  mountedClients ++ [client]

/-- `unmount` from `queryClient.ts`: `indexOf` the client and `splice` it
out, i.e. remove the first occurrence if present. -/
def unmount (mountedClients : List Nat) (client : Nat) : List Nat :=
  mountedClients.erase client

/-- A mounted client as the focus/online dispatch sees it: its query-cache
and mutation-cache identities. -/
structure ClientRec where
  queryCache : Nat
  mutationCache : Nat
  deriving DecidableEq, Repr

/-- Modelled from the spec: `uniq` from `src/core/utils.ts` (not in the
sampled source) removes duplicates, keeping the first occurrence of each
element. The `seen` accumulator holds the elements already emitted. -/
def uniqAux (seen : List Nat) : List Nat → List Nat
  | [] => []
  | x :: xs => if x ∈ seen then uniqAux seen xs else x :: uniqAux (x :: seen) xs

/-- First-occurrence deduplication. -/
def uniq (l : List Nat) : List Nat := uniqAux [] l

/-- `getQueryCaches` from `queryClient.ts`: the deduplicated query caches of
the mounted clients. -/
def getQueryCaches (mounted : List ClientRec) : List Nat :=
  uniq (mounted.map (fun c => c.queryCache))

/-- `getMutationCaches` from `queryClient.ts`: the deduplicated mutation
caches of the mounted clients. -/
def getMutationCaches (mounted : List ClientRec) : List Nat :=
  uniq (mounted.map (fun c => c.mutationCache))

/-- One `onFocus` / `onOnline` call delivered to a cache. -/
inductive CacheCall where
  | mutFocus (cache : Nat)
  | qryFocus (cache : Nat)
  | mutOnline (cache : Nat)
  | qryOnline (cache : Nat)
  deriving DecidableEq, Repr

/-- The global `onFocus` callback from `queryClient.ts`: when
`isVisibleAndOnline()` (modelled from the spec as a boolean input, the host
supplies it) holds, notify every distinct mutation cache and then every
distinct query cache; otherwise do nothing. -/
def onFocus (visibleAndOnline : Bool) (mounted : List ClientRec) : List CacheCall :=
  if visibleAndOnline then
    (getMutationCaches mounted).map CacheCall.mutFocus ++
      (getQueryCaches mounted).map CacheCall.qryFocus
  else
    []

/-- The global `onOnline` callback from `queryClient.ts`, same shape as
`onFocus`. -/
def onOnline (visibleAndOnline : Bool) (mounted : List ClientRec) : List CacheCall :=
  if visibleAndOnline then
    (getMutationCaches mounted).map CacheCall.mutOnline ++
      (getQueryCaches mounted).map CacheCall.qryOnline
  else
    []

-- CONCRETE FIXTURES (used by witnesses and counterexamples)

/-- A successful query state with data `7` updated at time 100. -/
def wState : QueryState Int String :=
  { data := some 7
    dataUpdatedAt := 100
    error := none
    errorUpdatedAt := 0
    updatedAt := 100
    fetchFailureCount := 0
    isFetching := false
    isInvalidated := false
    status := QueryStatus.success }

/-- A cached query under key `"k"` holding `wState`. -/
def wQuery : Query Int String :=
  { queryKey := "k"
    queryHash := "k"
    state := wState
    cacheTime := JNum.fin 300000
    options := { queryKey := some "k", staleTime := some 1000 }
    observers := [] }

/-- A dehydrated query for `"k"` that is newer than `wQuery`. -/
def wNewer : DehydratedQuery Int String :=
  { queryKey := "k"
    queryHash := "k"
    state := { wState with data := some 8, dataUpdatedAt := 200, updatedAt := 200 }
    config := { cacheTime := JNum.fin 300000 } }

/-- A dehydrated query for `"k"` that is older than `wQuery`. -/
def wOlder : DehydratedQuery Int String :=
  { queryKey := "k"
    queryHash := "k"
    state := { wState with data := some 6, dataUpdatedAt := 50, updatedAt := 50 }
    config := { cacheTime := JNum.fin 300000 } }

/-- `wQuery` with an infinite retention time. -/
def wInf : Query Int String := { wQuery with cacheTime := JNum.inf }

/-- A client with no default options. -/
def wDefaults : DefaultOptions := {}

/-- Parsed fetch options: key `"k"`, `staleTime` 1000, `retry` unspecified. -/
def wParsed : QueryOptions := { queryKey := some "k", staleTime := some 1000 }

/-- An active query (one observer, `enabled` unspecified) that has not been
invalidated. -/
def cexActive : Query Int String :=
  { queryKey := "a"
    queryHash := "a"
    state := { wState with dataUpdatedAt := 0, updatedAt := 0 }
    cacheTime := JNum.fin 300000
    options := {}
    observers := [{ enabled := none }] }

/-- Filters whose predicate keeps exactly the queries that are not yet
invalidated. -/
def cexPredFilters : QueryFilters Int String :=
  { predicate := some (fun q => !q.state.isInvalidated) }

-- HELPER LEMMAS

/-- `find?` commutes with replacing the first hit, provided the replacement
still satisfies the predicate. -/
theorem find_updateFirst {β : Type} (p : β → Bool) (f : β → β)
    (hpf : ∀ x, p x = true → p (f x) = true) :
    ∀ (l : List β) (q : β), l.find? p = some q →
      (updateFirst p f l).find? p = some (f q) := by
  intro l
  induction l with
  | nil => intro q h; simp [List.find?] at h
  | cons x xs ih =>
    intro q h
    by_cases hx : p x = true
    · rw [List.find?_cons_of_pos _ hx] at h
      injection h with h
      subst h
      rw [updateFirst, if_pos hx]
      exact List.find?_cons_of_pos _ (hpf x hx)
    · rw [List.find?_cons_of_neg _ (by simpa using hx)] at h
      rw [updateFirst, if_neg hx]
      rw [List.find?_cons_of_neg _ (by simpa using hx)]
      exact ih q h

/-- Element count in the deduplicated list with a `seen` accumulator. -/
theorem uniqAux_count : ∀ (l seen : List Nat) (x : Nat),
    (uniqAux seen l).count x = if x ∈ seen then 0 else if x ∈ l then 1 else 0 := by
  intro l
  induction l with
  | nil => intro seen x; simp [uniqAux]
  | cons y ys ih =>
    intro seen x
    by_cases hy : y ∈ seen
    · rw [uniqAux, if_pos hy, ih]
      by_cases hx : x ∈ seen
      · simp [hx]
      · have hxy : x ≠ y := fun h => hx (h ▸ hy)
        simp [hx, hxy]
    · rw [uniqAux, if_neg hy]
      rw [List.count_cons, ih]
      by_cases hxy : x = y
      · subst hxy
        simp [hy]
      · have hyx : ¬y = x := fun h => hxy h.symm
        by_cases hx : x ∈ seen
        · simp [hx, hxy, hyx]
        · simp [hx, hxy, hyx]

/-- An element occurs in `uniq l` exactly once when it occurs in `l`, and not
at all otherwise. -/
theorem uniq_count (l : List Nat) (x : Nat) :
    (uniq l).count x = if x ∈ l then 1 else 0 := by
  simpa [uniq] using uniqAux_count l [] x

/-- A query matched by filters demanding `active = true` is active. -/
theorem matchQuery_active_true {α ε : Type} (filters : QueryFilters α ε) (now : Int)
    (q : Query α ε) (hact : filters.active = some true)
    (h : matchQuery filters now q = true) : q.isActive = true := by
  unfold matchQuery at h
  rw [hact] at h
  simp only [Bool.and_eq_true] at h
  simpa using h.1.1.1.1.2

-- CLAIM THEOREMS

/-- C3: `dehydrate` without a `shouldDehydrate` option emits exactly the
queries whose status is `success`, each in the `dehydrateQuery` shape
(`{queryKey, queryHash, state, config: {cacheTime}}`), and none whose status
is `loading`, `error` or `idle`. -/
theorem dehydrate_default_only_success :
    ∀ (α ε : Type) (cache : List (Query α ε)) (d : DehydratedQuery α ε),
      d ∈ (dehydrate cache none).queries ↔
        ∃ q, q ∈ cache ∧ q.state.status = QueryStatus.success ∧ d = dehydrateQuery q := by
  intro α ε cache d
  simp only [dehydrate, Option.getD_none, List.mem_map, List.mem_filter]
  constructor
  · rintro ⟨q, ⟨hq, hs⟩, hd⟩
    exact ⟨q, hq, by simpa [defaultShouldDehydrate] using hs, hd.symm⟩
  · rintro ⟨q, hq, hs, hd⟩
    exact ⟨q, ⟨hq, by simpa [defaultShouldDehydrate] using hs⟩, hd.symm⟩

/-- C4: the `cacheTime` encoding round-trips: decoding after encoding is the
identity on non-negative finite values and on `Infinity`; `Infinity` encodes
as `-1` and `-1` decodes to `Infinity`; a query dehydrated with `cacheTime`
`Infinity` is restored by `hydrate` with `cacheTime` `Infinity`. -/
theorem cacheTime_roundtrip :
    (∀ v : JNum, v.nonneg →
      deserializePositiveNumber (serializePositiveNumber v) = v) ∧
    serializePositiveNumber JNum.inf = JNum.fin (-1) ∧
    deserializePositiveNumber (JNum.fin (-1)) = JNum.inf ∧
    ∀ (α ε : Type) (q : Query α ε), q.cacheTime = JNum.inf →
      (hydrate ([] : List (Query α ε))
          (DehydratedInput.object (some [dehydrateQuery q])) none).map
        (fun r => r.cacheTime) = [JNum.inf] := by
  refine ⟨?_, rfl, rfl, ?_⟩
  · intro v hv
    cases v with
    | fin n =>
      simp only [JNum.nonneg] at hv
      simp [serializePositiveNumber, deserializePositiveNumber]
      omega
    | inf => rfl
  · intro α ε q hq
    simp [hydrate, jsTypeof, isNullInput, dehydratedQueries, hydrateOne, List.find?,
      dehydrateQuery, restoreQuery, hq, serializePositiveNumber, deserializePositiveNumber]

/-- C4 witness: the round trip at the concrete value 5, and the concrete
query `wInf` (dehydrated with `cacheTime` `Infinity`) restored with
`cacheTime` `Infinity`. -/
theorem cacheTime_roundtrip_witness :
    deserializePositiveNumber (serializePositiveNumber (JNum.fin 5)) = JNum.fin 5 ∧
    (hydrate ([] : List (Query Int String))
        (DehydratedInput.object (some [dehydrateQuery wInf])) none).map
      (fun r => r.cacheTime) = [JNum.inf] :=
  ⟨cacheTime_roundtrip.1 (JNum.fin 5) (by decide),
   cacheTime_roundtrip.2.2.2 Int String wInf rfl⟩

/-- C5: the promise returned by `prefetchQuery` always resolves to
`undefined`: a successful fetch's value is discarded and a failed fetch's
error is swallowed. -/
theorem prefetchQuery_always_resolves :
    ∀ (α ε : Type) (defaults : DefaultOptions) (cache : List (Query α ε))
      (parsed : QueryOptions) (now : Int) (fetchOutcome : POutcome (Option α) ε),
      prefetchQueryPromise defaults cache parsed now fetchOutcome = POutcome.resolved () := by
  intro α ε defaults cache parsed now fetchOutcome
  unfold prefetchQueryPromise
  cases fetchQueryDataPromise defaults cache parsed now fetchOutcome <;> rfl

/-- C8: `hydrate` leaves the cache untouched when the payload is not a
non-null object (a string, number, boolean, `undefined`, or `null`), and
likewise when the payload is an object without a `queries` field. -/
theorem hydrate_skips_nonobject :
    ∀ (α ε : Type) (cache : List (Query α ε)) (options : Option HydrateOptions)
      (s : String) (n : Int) (b : Bool),
      hydrate cache (DehydratedInput.str s) options = cache ∧
      hydrate cache (DehydratedInput.num n) options = cache ∧
      hydrate cache (DehydratedInput.boolean b) options = cache ∧
      hydrate cache DehydratedInput.undef options = cache ∧
      hydrate cache DehydratedInput.null options = cache ∧
      hydrate cache (DehydratedInput.object none) options = cache := by
  intro α ε cache options s n b
  refine ⟨?_, ?_, ?_, ?_, ?_, ?_⟩ <;>
    simp [hydrate, jsTypeof, isNullInput, dehydratedQueries]

/-- C6 counterexample: with client default options supplying `retry = 3` and
parsed options leaving `retry` unspecified, the effective retry used by
`fetchQueryData` is `false`, not the client default — the claim's clause that
a retry value coming from client default options is left unchanged fails. -/
theorem fetch_retry_default_cex :
    (effectiveFetchOptions { queries := { retry := some (Retry.count 3) } }
        { staleTime := some 1000 }).retry = some Retry.rfalse ∧
    some Retry.rfalse ≠ some (Retry.count 3) := by
  decide

/-- C6 (amended): the effective retry of `fetchQueryData` is the parsed
options' retry when supplied and `false` otherwise, regardless of the
client's default options (which are overridden by the pre-merge defaulting
step). -/
theorem fetch_retry_resolution :
    ∀ (defaults : DefaultOptions) (parsed : QueryOptions),
      (effectiveFetchOptions defaults parsed).retry = some (parsed.retry.getD Retry.rfalse) := by
  intro defaults parsed
  cases h : parsed.retry <;>
    simp [effectiveFetchOptions, applyPrefetchRetryDefault, defaultQueryOptions,
      spreadQueryOptions, optOverride, h]

/-- C1: when a dehydrated query's hash matches a query already in the cache,
`hydrate` overwrites that query's state iff the dehydrated `updatedAt` is
strictly greater than the existing one; when the existing `updatedAt` is
greater or equal, the cache is left completely unchanged. -/
theorem hydrate_overwrites_iff_newer :
    ∀ (α ε : Type) (cache : List (Query α ε)) (dq : DehydratedQuery α ε)
      (options : Option HydrateOptions) (q : Query α ε),
      cache.find? (fun r => r.queryHash == dq.queryHash) = some q →
      ((q.state.updatedAt < dq.state.updatedAt →
          (hydrate cache (DehydratedInput.object (some [dq])) options).find?
              (fun r => r.queryHash == dq.queryHash) = some (q.setState dq.state)) ∧
       (¬q.state.updatedAt < dq.state.updatedAt →
          hydrate cache (DehydratedInput.object (some [dq])) options = cache)) := by
  intro α ε cache dq options q hfind
  have hred : hydrate cache (DehydratedInput.object (some [dq])) options =
      hydrateOne ((options.bind (fun o => o.defaultOptions)).getD {}) cache dq := by
    simp [hydrate, jsTypeof, isNullInput, dehydratedQueries]
  have hcase : hydrateOne ((options.bind (fun o => o.defaultOptions)).getD {}) cache dq =
      if q.state.updatedAt < dq.state.updatedAt then
        updateFirst (fun r => r.queryHash == dq.queryHash) (fun r => r.setState dq.state) cache
      else cache := by
    unfold hydrateOne
    rw [hfind]
  constructor
  · intro hlt
    rw [hred, hcase, if_pos hlt]
    exact find_updateFirst _ _ (fun x hx => by simpa [Query.setState] using hx) cache q hfind
  · intro hge
    rw [hred, hcase, if_neg hge]

/-- C1 witness: hydrating a newer dehydrated query overwrites `wQuery`'s
state; hydrating an older one leaves the cache unchanged. -/
theorem hydrate_overwrites_iff_newer_witness :
    (hydrate [wQuery] (DehydratedInput.object (some [wNewer])) none).find?
        (fun r => r.queryHash == wNewer.queryHash) = some (wQuery.setState wNewer.state) ∧
    hydrate [wQuery] (DehydratedInput.object (some [wOlder])) none = [wQuery] :=
  ⟨(hydrate_overwrites_iff_newer Int String [wQuery] wNewer none wQuery (by decide)).1
      (by decide),
   (hydrate_overwrites_iff_newer Int String [wQuery] wOlder none wQuery (by decide)).2
      (by decide)⟩

/-- C2: `fetchQueryData` resolves with the cached `state.data` and starts no
fetch exactly when a query for the key exists and is not stale under the
effective `staleTime`; when the query is stale it fetches on it, and when no
query exists it builds one and fetches. -/
theorem fetchQueryData_stale_dispatch :
    ∀ (α ε : Type) (defaults : DefaultOptions) (cache : List (Query α ε))
      (parsed : QueryOptions) (now : Int),
      (∀ q : Query α ε,
        findQueryByKey cache ((effectiveFetchOptions defaults parsed).queryKey.getD "") =
            some q →
        fetchQueryDataDecision defaults cache parsed now =
          (if isStaleByTime q (effectiveFetchOptions defaults parsed).staleTime now then
            FetchDecision.fetchExisting q.queryHash
          else
            FetchDecision.cached q.state.data)) ∧
      (findQueryByKey cache ((effectiveFetchOptions defaults parsed).queryKey.getD "") =
          none →
        fetchQueryDataDecision defaults cache parsed now =
          FetchDecision.fetchNew
            (hashQueryKey ((effectiveFetchOptions defaults parsed).queryKey.getD ""))) := by
  intro α ε defaults cache parsed now
  constructor
  · intro q hq
    simp only [fetchQueryDataDecision]
    rw [hq]
    show (if (!isStaleByTime q (effectiveFetchOptions defaults parsed).staleTime now) = true
        then FetchDecision.cached q.state.data
        else FetchDecision.fetchExisting q.queryHash) = _
    cases isStaleByTime q (effectiveFetchOptions defaults parsed).staleTime now <;> rfl
  · intro hq
    simp only [fetchQueryDataDecision]
    rw [hq]

/-- C2 witness: with a fresh cached query (`staleTime` 1000, data age 0) the
decision is the cached data and no fetch; with an empty cache it is a fresh
fetch. -/
theorem fetchQueryData_stale_dispatch_witness :
    fetchQueryDataDecision wDefaults [wQuery] wParsed 100 = FetchDecision.cached (some 7) ∧
    fetchQueryDataDecision wDefaults ([] : List (Query Int String)) wParsed 100 =
      FetchDecision.fetchNew "k" := by
  constructor
  · rw [(fetchQueryData_stale_dispatch Int String wDefaults [wQuery] wParsed 100).1 wQuery
      (by decide)]
    decide
  · rw [(fetchQueryData_stale_dispatch Int String wDefaults
      ([] : List (Query Int String)) wParsed 100).2 (by decide)]
    decide

/-- C7 counterexample: for an active, matching query and a predicate filter
that keeps non-invalidated queries, `invalidateQueries` refetches nothing —
the refetch `findAll` runs after invalidation, so the matching active query
is not refetched, contrary to the claim. -/
theorem invalidateQueries_refetch_cex :
    matchQuery cexPredFilters 0 cexActive = true ∧
    cexActive.isActive = true ∧
    cexPredFilters.refetchActive = none ∧
    cexPredFilters.refetchInactive = none ∧
    (invalidateQueries [cexActive] cexPredFilters 0).refetched = [] := by
  refine ⟨by decide, by decide, rfl, rfl, by decide⟩

/-- C7 (amended): `invalidateQueries` invalidates every matching query and
keeps non-matching queries unchanged; with `refetchActive` and
`refetchInactive` unspecified, the refetched set is exactly the queries of
the post-invalidation cache matching the given filters restricted to
`active = true`, `inactive = false` — hence only active queries are
refetched — and everything happens in a single Notify Manager batch flush. -/
theorem invalidateQueries_spec :
    ∀ (α ε : Type) (cache : List (Query α ε)) (filters : QueryFilters α ε) (now : Int),
      filters.refetchActive = none → filters.refetchInactive = none →
      (∀ q, q ∈ cache → matchQuery filters now q = true →
        Query.invalidate q ∈ (invalidateQueries cache filters now).cache) ∧
      (∀ q, q ∈ cache → matchQuery filters now q = false →
        q ∈ (invalidateQueries cache filters now).cache) ∧
      (∀ h : String, h ∈ (invalidateQueries cache filters now).refetched ↔
        ∃ q, q ∈ (invalidateQueries cache filters now).cache ∧
          matchQuery { filters with active := some true, inactive := some false } now q =
            true ∧
          q.queryHash = h) ∧
      (∀ h : String, h ∈ (invalidateQueries cache filters now).refetched →
        ∃ q, q ∈ (invalidateQueries cache filters now).cache ∧ q.queryHash = h ∧
          q.isActive = true) ∧
      (invalidateQueries cache filters now).flushes = 1 := by
  intro α ε cache filters now hA hI
  refine ⟨?_, ?_, ?_, ?_, rfl⟩
  · intro q hq hm
    simp only [invalidateQueries, List.mem_map]
    exact ⟨q, hq, by rw [if_pos hm]⟩
  · intro q hq hm
    simp only [invalidateQueries, List.mem_map]
    exact ⟨q, hq, by rw [if_neg (by simp [hm])]⟩
  · intro h
    simp only [invalidateQueries, refetchQueriesHashes, hA, hI, Option.getD_none,
      List.mem_map, List.mem_filter]
    constructor
    · rintro ⟨q, ⟨hq, hm⟩, hh⟩
      exact ⟨q, hq, hm, hh⟩
    · rintro ⟨q, hq, hm, hh⟩
      exact ⟨q, ⟨hq, hm⟩, hh⟩
  · intro h hh
    simp only [invalidateQueries, refetchQueriesHashes, hA, hI, Option.getD_none,
      List.mem_map, List.mem_filter] at hh
    obtain ⟨q, ⟨hq, hm⟩, hh⟩ := hh
    refine ⟨q, by simpa [invalidateQueries] using hq, hh, ?_⟩
    exact matchQuery_active_true _ now q rfl hm

/-- C7 witness: on a one-query cache with empty filters, the invalidated
query is in the resulting cache and the call produces one batch flush. -/
theorem invalidateQueries_spec_witness :
    Query.invalidate cexActive ∈
      (invalidateQueries [cexActive] ({} : QueryFilters Int String) 0).cache ∧
    (invalidateQueries [cexActive] ({} : QueryFilters Int String) 0).flushes = 1 := by
  have h := invalidateQueries_spec Int String [cexActive] {} 0 rfl rfl
  exact ⟨h.1 cexActive (by decide) (by decide), h.2.2.2.2⟩

/-- C9 counterexample: mounting a client twice is not idempotent — the
mounted-clients list differs from a single mount, and after two mounts a
single unmount leaves the client registered. -/
theorem mount_not_idempotent_cex :
    mount (mount [] 0) 0 ≠ mount [] 0 ∧ 0 ∈ unmount (mount (mount [] 0) 0) 0 := by
  decide

/-- C9 (amended): `mount` appends the client to the mounted-clients list on
every call and `unmount` removes one occurrence, so a client not previously
mounted is deregistered by mount-then-unmount, while after two mounts a
single unmount leaves it registered. -/
theorem mount_unmount_balance :
    ∀ (mountedClients : List Nat) (c : Nat), c ∉ mountedClients →
      unmount (mount mountedClients c) c = mountedClients ∧
      c ∈ unmount (mount (mount mountedClients c) c) c := by
  intro cs c hc
  constructor
  · rw [mount, unmount, List.erase_append_right _ (by simpa using hc)]
    simp
  · rw [mount, mount, unmount, List.append_assoc,
      List.erase_append_right _ (by simpa using hc)]
    simp

/-- C9 witness: concrete mount/unmount balance on the list `[1, 2]` for
client `0`. -/
theorem mount_unmount_balance_witness :
    unmount (mount [1, 2] 0) 0 = [1, 2] ∧ 0 ∈ unmount (mount (mount [1, 2] 0) 0) 0 :=
  mount_unmount_balance [1, 2] 0 (by decide)

/-- C10: when `isVisibleAndOnline()` is false the global focus and online
callbacks notify no cache; when it is true, every distinct mutation cache and
every distinct query cache of the mounted clients is notified exactly once
(duplicates across clients sharing a cache removed), with all mutation-cache
calls before all query-cache calls. -/
theorem focus_online_dispatch :
    ∀ (mounted : List ClientRec),
      onFocus false mounted = [] ∧
      onOnline false mounted = [] ∧
      onFocus true mounted =
        (getMutationCaches mounted).map CacheCall.mutFocus ++
          (getQueryCaches mounted).map CacheCall.qryFocus ∧
      onOnline true mounted =
        (getMutationCaches mounted).map CacheCall.mutOnline ++
          (getQueryCaches mounted).map CacheCall.qryOnline ∧
      (∀ m : Nat, (onFocus true mounted).count (CacheCall.mutFocus m) =
        if m ∈ mounted.map (fun c => c.mutationCache) then 1 else 0) ∧
      (∀ m : Nat, (onFocus true mounted).count (CacheCall.qryFocus m) =
        if m ∈ mounted.map (fun c => c.queryCache) then 1 else 0) ∧
      (∀ m : Nat, (onOnline true mounted).count (CacheCall.mutOnline m) =
        if m ∈ mounted.map (fun c => c.mutationCache) then 1 else 0) ∧
      (∀ m : Nat, (onOnline true mounted).count (CacheCall.qryOnline m) =
        if m ∈ mounted.map (fun c => c.queryCache) then 1 else 0) := by
  intro mounted
  have hmutF : Function.Injective CacheCall.mutFocus := fun a b h => by
    injection h
  have hqryF : Function.Injective CacheCall.qryFocus := fun a b h => by
    injection h
  have hmutO : Function.Injective CacheCall.mutOnline := fun a b h => by
    injection h
  have hqryO : Function.Injective CacheCall.qryOnline := fun a b h => by
    injection h
  refine ⟨rfl, rfl, rfl, rfl, ?_, ?_, ?_, ?_⟩
  · intro m
    have h0 : (List.map CacheCall.qryFocus (getQueryCaches mounted)).count
        (CacheCall.mutFocus m) = 0 := List.count_eq_zero.mpr (by simp)
    rw [onFocus, if_pos rfl, List.count_append, List.count_map_of_injective _ _ hmutF, h0,
      getMutationCaches, uniq_count]
    simp
  · intro m
    have h0 : (List.map CacheCall.mutFocus (getMutationCaches mounted)).count
        (CacheCall.qryFocus m) = 0 := List.count_eq_zero.mpr (by simp)
    rw [onFocus, if_pos rfl, List.count_append, List.count_map_of_injective _ _ hqryF, h0,
      getQueryCaches, uniq_count]
    simp
  · intro m
    have h0 : (List.map CacheCall.qryOnline (getQueryCaches mounted)).count
        (CacheCall.mutOnline m) = 0 := List.count_eq_zero.mpr (by simp)
    rw [onOnline, if_pos rfl, List.count_append, List.count_map_of_injective _ _ hmutO, h0,
      getMutationCaches, uniq_count]
    simp
  · intro m
    have h0 : (List.map CacheCall.mutOnline (getMutationCaches mounted)).count
        (CacheCall.qryOnline m) = 0 := List.count_eq_zero.mpr (by simp)
    rw [onOnline, if_pos rfl, List.count_append, List.count_map_of_injective _ _ hqryO, h0,
      getQueryCaches, uniq_count]
    simp

end ReactQuery
